import Mathlib

/-!
Verification of the coordinate-transform chain, affine calibration solver,
colour ramp and visible-region statistics of the tracking-heatmap frontend.

The TypeScript sources are embedded shallowly over `ℚ`: every JavaScript
number that the verified code paths manipulate arithmetically is modelled as
an exact rational (decimal literals such as `1e-10`, `0.25`, `0.02` become
the corresponding rationals), and the transcendental values
`Math.cos(rotation·π/180)` and `Math.sin(rotation·π/180)` are passed to the
embedded functions as an explicit pair `(c, s)`; the source identities
`cos(-ρ) = cos ρ` and `sin(-ρ) = -sin ρ` are applied where the inverse
transform evaluates the trigonometric functions at the negated angle.
-/

namespace Tracking

/-- A 2-D point (canvas or data space); `{x, y}` objects of the source. -/
structure Pt where
  x : ℚ
  y : ℚ
deriving DecidableEq, Repr

/-- `FloorPlan` record from `types.ts`: calibration bounds, image metadata
and the saved adjustment parameters. -/
structure FloorPlan where
  id : ℤ
  store_id : ℤ
  floor : ℤ
  filename : String
  url : String
  data_min_x : ℚ
  data_max_x : ℚ
  data_min_y : ℚ
  data_max_y : ℚ
  image_width : ℚ
  image_height : ℚ
  adjust_offset_x : ℚ
  adjust_offset_y : ℚ
  adjust_scale : ℚ
  adjust_scale_x : ℚ
  adjust_scale_y : ℚ
  adjust_rotation : ℚ
  affine_a : Option ℚ := none
  affine_b : Option ℚ := none
  affine_c : Option ℚ := none
  affine_d : Option ℚ := none
  affine_tx : Option ℚ := none
  affine_ty : Option ℚ := none
  created_at : String
deriving DecidableEq, Repr

/-- `dataToCanvas` from `utils/coordinates.ts`: normalize the data point by
the floor-plan bounds into `[0,1]²`, then scale to canvas pixels with the
vertical axis flipped. -/
def dataToCanvas (dataX dataY : ℚ) (floorPlan : FloorPlan)
    (canvasWidth canvasHeight : ℚ) : Pt :=
  let normX := (dataX - floorPlan.data_min_x) / (floorPlan.data_max_x - floorPlan.data_min_x)
  let normY := (dataY - floorPlan.data_min_y) / (floorPlan.data_max_y - floorPlan.data_min_y)
  { x := normX * canvasWidth, y := (1 - normY) * canvasHeight }

/-- `canvasToData` from `utils/coordinates.ts`: normalize the pixel to
`[0,1]²` (flipping y) and map back into the floor-plan bounds. -/
def canvasToData (canvasX canvasY : ℚ) (floorPlan : FloorPlan)
    (canvasWidth canvasHeight : ℚ) : Pt :=
  let normX := canvasX / canvasWidth
  let normY := 1 - canvasY / canvasHeight
  { x := floorPlan.data_min_x + normX * (floorPlan.data_max_x - floorPlan.data_min_x),
    y := floorPlan.data_min_y + normY * (floorPlan.data_max_y - floorPlan.data_min_y) }

/-- `AffineTransform` coefficients: the transform sends `(x,y)` to
`(a·x + b·y + tx, c·x + d·y + ty)`. -/
structure AffineTransform where
  a : ℚ
  b : ℚ
  c : ℚ
  d : ℚ
  tx : ℚ
  ty : ℚ
deriving DecidableEq, Repr

/-- `FloorPlanAdjustment` from `types.ts`. The scale fields are modelled as
`Option ℚ` because the transform code reads them defensively through the
chain `scaleX ?? scale ?? 1.0` (absent values behave as the next fallback). -/
structure FloorPlanAdjustment where
  offsetX : ℚ
  offsetY : ℚ
  rotation : ℚ
  scale : Option ℚ
  scaleX : Option ℚ
  scaleY : Option ℚ
  lockAspectRatio : Bool
  useAffine : Bool := false
  affine : Option AffineTransform := none
deriving DecidableEq, Repr

/-- The resolved x scale factor `adjustment.scaleX ?? adjustment.scale ?? 1.0`
used by both `transformPoint` and `inverseTransformPoint`. -/
def scaleXof (adjustment : FloorPlanAdjustment) : ℚ :=
  adjustment.scaleX.getD (adjustment.scale.getD 1)

/-- The resolved y scale factor `adjustment.scaleY ?? adjustment.scale ?? 1.0`. -/
def scaleYof (adjustment : FloorPlanAdjustment) : ℚ :=
  adjustment.scaleY.getD (adjustment.scale.getD 1)

/-- `transformPoint` from `HeatmapCanvas/index.tsx`. In affine mode apply the
matrix directly; otherwise translate to the canvas centre, scale, rotate,
translate back and add the percentage offset. `c` and `s` stand for the
source's `Math.cos(rotation·π/180)` and `Math.sin(rotation·π/180)`. -/
def transformPoint (x y : ℚ) (adjustment : FloorPlanAdjustment) (c s : ℚ)
    (canvasWidth canvasHeight : ℚ) : Pt :=
  match adjustment.useAffine, adjustment.affine with
  | true, some t => { x := t.a * x + t.b * y + t.tx, y := t.c * x + t.d * y + t.ty }
  | _, _ =>
    let offsetX := adjustment.offsetX / 100 * canvasWidth
    let offsetY := adjustment.offsetY / 100 * canvasHeight
    let scaleX := scaleXof adjustment
    let scaleY := scaleYof adjustment
    let centerX := canvasWidth / 2
    let centerY := canvasHeight / 2
    let px := (x - centerX) * scaleX
    let py := (y - centerY) * scaleY
    let rx := px * c - py * s
    let ry := px * s + py * c
    { x := rx + centerX + offsetX, y := ry + centerY + offsetY }

/-- `inverseTransformPoint` from `HeatmapCanvas/index.tsx`. In affine mode a
near-zero determinant (`|det| < 1e-10`) returns the input unchanged;
otherwise the adjugate inverse is applied after removing the translation. In
simple mode the offset is removed, the rotation is reversed (the source
evaluates `cos(-ρ) = c` and `sin(-ρ) = -s`), and a zero scale factor leaves
the rotated value undivided on that axis. -/
def inverseTransformPoint (x y : ℚ) (adjustment : FloorPlanAdjustment) (c s : ℚ)
    (canvasWidth canvasHeight : ℚ) : Pt :=
  match adjustment.useAffine, adjustment.affine with
  | true, some t =>
    let det := t.a * t.d - t.b * t.c
    if |det| < 1 / 10 ^ 10 then { x := x, y := y }
    else
      let invDet := 1 / det
      let px := x - t.tx
      let py := y - t.ty
      { x := (t.d * px - t.b * py) * invDet, y := (-t.c * px + t.a * py) * invDet }
  | _, _ =>
    let offsetX := adjustment.offsetX / 100 * canvasWidth
    let offsetY := adjustment.offsetY / 100 * canvasHeight
    let scaleX := scaleXof adjustment
    let scaleY := scaleYof adjustment
    let centerX := canvasWidth / 2
    let centerY := canvasHeight / 2
    let px := x - offsetX - centerX
    let py := y - offsetY - centerY
    let rx := px * c - py * (-s)
    let ry := px * (-s) + py * c
    let ux := if scaleX ≠ 0 then rx / scaleX else rx
    let uy := if scaleY ≠ 0 then ry / scaleY else ry
    { x := ux + centerX, y := uy + centerY }

/-- `applyZoomPan` from `HeatmapCanvas/index.tsx`: scale about the canvas
centre by `zoom`, then add the pan offset. -/
def applyZoomPan (x y : ℚ) (zoom : ℚ) (pan : Pt) (canvasWidth canvasHeight : ℚ) : Pt :=
  let centerX := canvasWidth / 2
  let centerY := canvasHeight / 2
  { x := (x - centerX) * zoom + centerX + pan.x,
    y := (y - centerY) * zoom + centerY + pan.y }

/-- `inverseZoomPan` from `HeatmapCanvas/index.tsx`: remove the pan offset,
unscale about the canvas centre. -/
def inverseZoomPan (x y : ℚ) (zoom : ℚ) (pan : Pt) (canvasWidth canvasHeight : ℚ) : Pt :=
  let centerX := canvasWidth / 2
  let centerY := canvasHeight / 2
  { x := (x - pan.x - centerX) / zoom + centerX,
    y := (y - pan.y - centerY) / zoom + centerY }

/-- Round trip of the data/canvas normalization: exact over `ℚ` whenever the
reference frame has non-zero extents and the canvas dimensions are non-zero. -/
theorem canvasToData_dataToCanvas (px py : ℚ) (fp : FloorPlan) (w h : ℚ)
    (hx : fp.data_max_x - fp.data_min_x ≠ 0) (hy : fp.data_max_y - fp.data_min_y ≠ 0)
    (hw : w ≠ 0) (hh : h ≠ 0) :
    canvasToData (dataToCanvas px py fp w h).x (dataToCanvas px py fp w h).y fp w h =
      { x := px, y := py } := by
  simp only [canvasToData, dataToCanvas]
  refine congrArg₂ Pt.mk ?_ ?_ <;> field_simp <;> ring

/-- Claim C2: for every data point, every reference frame with non-zero x- and
y-extents and every canvas with positive width and height, `canvasToData`
after `dataToCanvas` reproduces the point exactly. -/
theorem claim2_roundtrip_data_canvas (px py : ℚ) (fp : FloorPlan) (w h : ℚ)
    (hx : fp.data_max_x - fp.data_min_x ≠ 0) (hy : fp.data_max_y - fp.data_min_y ≠ 0)
    (hw : 0 < w) (hh : 0 < h) :
    canvasToData (dataToCanvas px py fp w h).x (dataToCanvas px py fp w h).y fp w h =
      { x := px, y := py } :=
  canvasToData_dataToCanvas px py fp w h hx hy (ne_of_gt hw) (ne_of_gt hh)

/-- Invertibility of an alignment adjustment in the sense used by the spec:
affine mode requires `1e-10 ≤ |det|` (the code's own guard threshold), simple
mode requires both resolved scale factors to be non-zero. -/
def invertibleAdjustment (adjustment : FloorPlanAdjustment) : Prop :=
  match adjustment.useAffine, adjustment.affine with
  | true, some t => 1 / 10 ^ 10 ≤ |t.a * t.d - t.b * t.c|
  | _, _ => scaleXof adjustment ≠ 0 ∧ scaleYof adjustment ≠ 0

/-- Round trip of the viewport transform: exact for non-zero zoom. -/
theorem inverseZoomPan_applyZoomPan (x y zoom : ℚ) (pan : Pt) (w h : ℚ)
    (hz : zoom ≠ 0) :
    inverseZoomPan (applyZoomPan x y zoom pan w h).x
      (applyZoomPan x y zoom pan w h).y zoom pan w h = { x := x, y := y } := by
  simp only [applyZoomPan, inverseZoomPan]
  refine congrArg₂ Pt.mk ?_ ?_ <;> field_simp <;> ring

/-- Round trip of the alignment transform: exact whenever the adjustment is
invertible and `(c, s)` lies on the unit circle (as the cosine/sine pair of
the rotation angle does). -/
theorem inverseTransformPoint_transformPoint (x y : ℚ) (adj : FloorPlanAdjustment)
    (c s w h : ℚ) (hadj : invertibleAdjustment adj) (htrig : c ^ 2 + s ^ 2 = 1) :
    inverseTransformPoint (transformPoint x y adj c s w h).x
      (transformPoint x y adj c s w h).y adj c s w h = { x := x, y := y } := by
  cases hU : adj.useAffine with
  | true =>
    cases hA : adj.affine with
    | some t =>
      simp only [invertibleAdjustment, hU, hA] at hadj
      have hdet : t.a * t.d - t.b * t.c ≠ 0 := by
        intro h0
        rw [h0] at hadj
        norm_num at hadj
      have hnot : ¬ |t.a * t.d - t.b * t.c| < 1 / 10 ^ 10 := not_lt.mpr hadj
      simp only [transformPoint, inverseTransformPoint, hU, hA, if_neg hnot]
      refine congrArg₂ Pt.mk ?_ ?_ <;> rw [mul_one_div, div_eq_iff hdet] <;> ring
    | none =>
      simp only [invertibleAdjustment, hU, hA] at hadj
      obtain ⟨hsx, hsy⟩ := hadj
      simp only [transformPoint, inverseTransformPoint, hU, hA, if_pos hsx, if_pos hsy]
      refine congrArg₂ Pt.mk ?_ ?_
      · rw [div_add' _ _ _ hsx, div_eq_iff hsx]
        linear_combination (x - w / 2) * scaleXof adj * htrig
      · rw [div_add' _ _ _ hsy, div_eq_iff hsy]
        linear_combination (y - h / 2) * scaleYof adj * htrig
  | false =>
    cases hA : adj.affine with
    | some t =>
      simp only [invertibleAdjustment, hU, hA] at hadj
      obtain ⟨hsx, hsy⟩ := hadj
      simp only [transformPoint, inverseTransformPoint, hU, hA, if_pos hsx, if_pos hsy]
      refine congrArg₂ Pt.mk ?_ ?_
      · rw [div_add' _ _ _ hsx, div_eq_iff hsx]
        linear_combination (x - w / 2) * scaleXof adj * htrig
      · rw [div_add' _ _ _ hsy, div_eq_iff hsy]
        linear_combination (y - h / 2) * scaleYof adj * htrig
    | none =>
      simp only [invertibleAdjustment, hU, hA] at hadj
      obtain ⟨hsx, hsy⟩ := hadj
      simp only [transformPoint, inverseTransformPoint, hU, hA, if_pos hsx, if_pos hsy]
      refine congrArg₂ Pt.mk ?_ ?_
      · rw [div_add' _ _ _ hsx, div_eq_iff hsx]
        linear_combination (x - w / 2) * scaleXof adj * htrig
      · rw [div_add' _ _ _ hsy, div_eq_iff hsy]
        linear_combination (y - h / 2) * scaleYof adj * htrig

/-- The full forward pipeline `dataToCanvas → transformPoint → applyZoomPan`,
as composed by the rasterizer and the zone-drawing code. -/
def forwardPipeline (p : Pt) (vfp : FloorPlan) (adj : FloorPlanAdjustment)
    (c s zoom : ℚ) (pan : Pt) (w h : ℚ) : Pt :=
  let canvasPt := dataToCanvas p.x p.y vfp w h
  let adjusted := transformPoint canvasPt.x canvasPt.y adj c s w h
  applyZoomPan adjusted.x adjusted.y zoom pan w h

/-- The full inverse pipeline `inverseZoomPan → inverseTransformPoint →
canvasToData`, as composed by zone creation and the visible-stats effect. -/
def inversePipeline (q : Pt) (vfp : FloorPlan) (adj : FloorPlanAdjustment)
    (c s zoom : ℚ) (pan : Pt) (w h : ℚ) : Pt :=
  let unzoomed := inverseZoomPan q.x q.y zoom pan w h
  let untransformed := inverseTransformPoint unzoomed.x unzoomed.y adj c s w h
  canvasToData untransformed.x untransformed.y vfp w h

/-- Claim C1: the full inverse pipeline undoes the full forward pipeline for
every data point, every invertible adjustment (simple mode with non-zero
scale factors or affine mode with `1e-10 ≤ |det|`), every viewport with zoom
in `[1/2, 10]` and any pan, every non-degenerate reference frame, and every
positive canvas size; over `ℚ` the round trip is exact. -/
theorem claim1_full_pipeline_roundtrip (p : Pt) (vfp : FloorPlan)
    (adj : FloorPlanAdjustment) (c s zoom : ℚ) (pan : Pt) (w h : ℚ)
    (hx : vfp.data_max_x - vfp.data_min_x ≠ 0)
    (hy : vfp.data_max_y - vfp.data_min_y ≠ 0)
    (hw : 0 < w) (hh : 0 < h)
    (hz1 : 1 / 2 ≤ zoom) (_hz2 : zoom ≤ 10)
    (htrig : c ^ 2 + s ^ 2 = 1) (hadj : invertibleAdjustment adj) :
    inversePipeline (forwardPipeline p vfp adj c s zoom pan w h)
      vfp adj c s zoom pan w h = p := by
  have hz : zoom ≠ 0 := ne_of_gt (lt_of_lt_of_le (by norm_num) hz1)
  simp only [inversePipeline, forwardPipeline]
  rw [inverseZoomPan_applyZoomPan _ _ _ _ _ _ hz]
  dsimp only
  rw [inverseTransformPoint_transformPoint _ _ _ _ _ _ _ hadj htrig]
  dsimp only
  rw [canvasToData_dataToCanvas _ _ _ _ _ hx hy (ne_of_gt hw) (ne_of_gt hh)]

/-- A concrete reference frame used by the witnesses: bounds `[0,10] × [0,20]`. -/
def sampleFrame : FloorPlan :=
  { id := 1, store_id := 1, floor := 1, filename := "plan.png", url := "plan.png",
    data_min_x := 0, data_max_x := 10, data_min_y := 0, data_max_y := 20,
    image_width := 800, image_height := 600,
    adjust_offset_x := 0, adjust_offset_y := 0, adjust_scale := 1,
    adjust_scale_x := 1, adjust_scale_y := 1, adjust_rotation := 0,
    created_at := "" }

/-- Witness for claim C2 at the point `(3, 4)` on an `800 × 600` canvas. -/
theorem claim2_roundtrip_data_canvas_witness :
    canvasToData (dataToCanvas 3 4 sampleFrame 800 600).x
      (dataToCanvas 3 4 sampleFrame 800 600).y sampleFrame 800 600 =
      { x := 3, y := 4 } :=
  claim2_roundtrip_data_canvas 3 4 sampleFrame 800 600 (by norm_num [sampleFrame])
    (by norm_num [sampleFrame]) (by norm_num) (by norm_num)

/-- A concrete simple-mode adjustment used by the witnesses: percentage
offsets 10 and -5, independent scale factors 2 and 1/2. -/
def sampleAdjustment : FloorPlanAdjustment :=
  { offsetX := 10, offsetY := -5, rotation := 53, scale := some 1,
    scaleX := some 2, scaleY := some (1 / 2), lockAspectRatio := false,
    useAffine := false, affine := none }

/-- Witness for claim C1: a concrete round trip through the full pipeline in
simple mode with rotation cosine/sine `(3/5, 4/5)`, zoom 2 and pan `(7, -5)`. -/
theorem claim1_full_pipeline_roundtrip_witness :
    inversePipeline
      (forwardPipeline { x := 3, y := 4 } sampleFrame sampleAdjustment
        (3 / 5) (4 / 5) 2 { x := 7, y := -5 } 800 600)
      sampleFrame sampleAdjustment (3 / 5) (4 / 5) 2 { x := 7, y := -5 } 800 600 =
      { x := 3, y := 4 } :=
  claim1_full_pipeline_roundtrip _ _ _ _ _ _ _ _ _
    (by norm_num [sampleFrame]) (by norm_num [sampleFrame])
    (by norm_num) (by norm_num) (by norm_num) (by norm_num) (by norm_num)
    (by norm_num [invertibleAdjustment, sampleAdjustment, scaleXof, scaleYof])

/-- The pan update performed by the `handleWheel` listener ("Zoom toward
mouse position"): `pan' = mouse - (mouse - pan) * (newZoom / zoom)`. -/
def wheelPanUpdate (mouseX mouseY zoom newZoom : ℚ) (pan : Pt) : Pt :=
  let scale := newZoom / zoom
  { x := mouseX - (mouseX - pan.x) * scale,
    y := mouseY - (mouseY - pan.y) * scale }

/-- What the wheel handler actually achieves: after its pan update the
inverse-viewport image of the pointer drifts by `center · (1/zoom - 1/newZoom)`
on each axis — the update formula ignores the canvas-centre translation that
`applyZoomPan`/`inverseZoomPan` perform, so the pointer is only a fixed point
when the centre is zero or the zoom is unchanged. -/
theorem wheelPanUpdate_drift (mouseX mouseY zoom newZoom : ℚ) (pan : Pt)
    (w h : ℚ) (hz : zoom ≠ 0) (hz' : newZoom ≠ 0) :
    inverseZoomPan mouseX mouseY newZoom
        (wheelPanUpdate mouseX mouseY zoom newZoom pan) w h =
      { x := (inverseZoomPan mouseX mouseY zoom pan w h).x +
          w / 2 * (1 / zoom - 1 / newZoom),
        y := (inverseZoomPan mouseX mouseY zoom pan w h).y +
          h / 2 * (1 / zoom - 1 / newZoom) } := by
  simp only [inverseZoomPan, wheelPanUpdate]
  refine congrArg₂ Pt.mk ?_ ?_ <;> field_simp <;> ring

/-- Claim C5 fails on the code: on a `2 × 2` canvas with the pointer at the
origin, zooming from 1 to 2 with the handler's pan update moves the
inverse-viewport image of the pointer from `(0, 0)` to `(1/2, 1/2)`; the
data point under the pointer does not stay fixed. -/
theorem claim5_wheel_zoom_not_anchored :
    inverseZoomPan 0 0 2 (wheelPanUpdate 0 0 1 2 { x := 0, y := 0 }) 2 2 =
        { x := 1 / 2, y := 1 / 2 } ∧
    inverseZoomPan 0 0 1 { x := 0, y := 0 } 2 2 = { x := 0, y := 0 } ∧
    inverseZoomPan 0 0 2 (wheelPanUpdate 0 0 1 2 { x := 0, y := 0 }) 2 2 ≠
      inverseZoomPan 0 0 1 { x := 0, y := 0 } 2 2 := by
  refine ⟨?_, ?_, ?_⟩ <;> norm_num [inverseZoomPan, wheelPanUpdate, Pt.mk.injEq]

/-- Claim C7: inverting an affine adjustment whose determinant has absolute
value below `1e-10` returns the input point unchanged, and inverting a simple
adjustment with a zero resolved scale factor leaves the rotated value
undivided on that axis (the source evaluates `cos(-ρ) = c`, `sin(-ρ) = -s`). -/
theorem claim7_inverse_guards :
    (∀ (x y : ℚ) (adj : FloorPlanAdjustment) (t : AffineTransform) (c s w h : ℚ),
        adj.useAffine = true → adj.affine = some t →
        |t.a * t.d - t.b * t.c| < 1 / 10 ^ 10 →
        inverseTransformPoint x y adj c s w h = { x := x, y := y }) ∧
    (∀ (x y : ℚ) (adj : FloorPlanAdjustment) (c s w h : ℚ),
        adj.useAffine = false → scaleXof adj = 0 →
        (inverseTransformPoint x y adj c s w h).x =
          ((x - adj.offsetX / 100 * w - w / 2) * c +
              (y - adj.offsetY / 100 * h - h / 2) * s) + w / 2) ∧
    (∀ (x y : ℚ) (adj : FloorPlanAdjustment) (c s w h : ℚ),
        adj.useAffine = false → scaleYof adj = 0 →
        (inverseTransformPoint x y adj c s w h).y =
          (-((x - adj.offsetX / 100 * w - w / 2) * s) +
              (y - adj.offsetY / 100 * h - h / 2) * c) + h / 2) := by
  refine ⟨?_, ?_, ?_⟩
  · intro x y adj t c s w h hU hA hdet
    simp only [inverseTransformPoint, hU, hA, if_pos hdet]
  · intro x y adj c s w h hU hsx
    have hnx : ¬ (scaleXof adj ≠ 0) := by simp [hsx]
    cases hA : adj.affine <;>
      simp only [inverseTransformPoint, hU, hA, if_neg hnx] <;> ring
  · intro x y adj c s w h hU hsy
    have hny : ¬ (scaleYof adj ≠ 0) := by simp [hsy]
    cases hA : adj.affine <;>
      simp only [inverseTransformPoint, hU, hA, if_neg hny] <;> ring

/-- An affine adjustment with determinant `1·4 - 2·2 = 0`. -/
def degenerateAffineAdjustment : FloorPlanAdjustment :=
  { offsetX := 0, offsetY := 0, rotation := 0, scale := some 1,
    scaleX := some 1, scaleY := some 1, lockAspectRatio := true,
    useAffine := true, affine := some { a := 1, b := 2, c := 2, d := 4, tx := 3, ty := 7 } }

/-- A simple adjustment whose resolved scale factors are both zero. -/
def zeroScaleAdjustment : FloorPlanAdjustment :=
  { offsetX := 0, offsetY := 0, rotation := 0, scale := some 0,
    scaleX := none, scaleY := none, lockAspectRatio := true,
    useAffine := false, affine := none }

/-- Witness for claim C7: the degenerate affine inversion fixes `(5, 6)`, and
with both scale factors zero and no rotation the rotated values come back
unchanged. -/
theorem claim7_inverse_guards_witness :
    inverseTransformPoint 5 6 degenerateAffineAdjustment 1 0 800 600 =
        { x := 5, y := 6 } ∧
    (inverseTransformPoint 5 6 zeroScaleAdjustment 1 0 800 600).x = 5 ∧
    (inverseTransformPoint 5 6 zeroScaleAdjustment 1 0 800 600).y = 6 := by
  refine ⟨claim7_inverse_guards.1 5 6 _ _ 1 0 800 600 rfl rfl (by norm_num
    [degenerateAffineAdjustment]), ?_, ?_⟩
  · have h := claim7_inverse_guards.2.1 5 6 zeroScaleAdjustment 1 0 800 600 rfl
      (by norm_num [scaleXof, zeroScaleAdjustment])
    rw [h]; norm_num [zeroScaleAdjustment]
  · have h := claim7_inverse_guards.2.2 5 6 zeroScaleAdjustment 1 0 800 600 rfl
      (by norm_num [scaleYof, zeroScaleAdjustment])
    rw [h]; norm_num [zeroScaleAdjustment]

/-- The determinant of the 3×3 homogeneous matrix of a source triple, exactly
as computed inline by `solveAffineTransform`; it vanishes precisely when the
three points are collinear. -/
def srcDet (p1 p2 p3 : Pt) : ℚ :=
  p1.x * (p2.y - p3.y) - p1.y * (p2.x - p3.x) + (p2.x * p3.y - p3.x * p2.y)

/-- `solveAffineTransform` from `App.tsx`: returns `none` unless both lists
have exactly three points (the source's length check) or when the homogeneous
determinant of the source triple is below `1e-10` in absolute value;
otherwise inverts the 3×3 matrix analytically and multiplies by the
destination coordinate vectors. -/
def solveAffineTransform (src dst : List Pt) : Option AffineTransform :=
  match src, dst with
  | [s1, s2, s3], [d1, d2, d3] =>
    let x1 := s1.x
    let y1 := s1.y
    let x2 := s2.x
    let y2 := s2.y
    let x3 := s3.x
    let y3 := s3.y
    let det := srcDet s1 s2 s3
    if |det| < 1 / 10 ^ 10 then none
    else
      let invDet := 1 / det
      let inv00 := (y2 - y3) * invDet
      let inv01 := (y3 - y1) * invDet
      let inv02 := (y1 - y2) * invDet
      let inv10 := (x3 - x2) * invDet
      let inv11 := (x1 - x3) * invDet
      let inv12 := (x2 - x1) * invDet
      let inv20 := (x2 * y3 - x3 * y2) * invDet
      let inv21 := (x3 * y1 - x1 * y3) * invDet
      let inv22 := (x1 * y2 - x2 * y1) * invDet
      some
        { a := inv00 * d1.x + inv01 * d2.x + inv02 * d3.x,
          b := inv10 * d1.x + inv11 * d2.x + inv12 * d3.x,
          tx := inv20 * d1.x + inv21 * d2.x + inv22 * d3.x,
          c := inv00 * d1.y + inv01 * d2.y + inv02 * d3.y,
          d := inv10 * d1.y + inv11 * d2.y + inv12 * d3.y,
          ty := inv20 * d1.y + inv21 * d2.y + inv22 * d3.y }
  | _, _ => none

/-- Claim C3 as stated is false: a triple can be non-collinear (non-zero
homogeneous determinant — here `1e-11`) and yet fall under the solver's
`|det| < 1e-10` guard, so `solveAffineTransform` returns `none` instead of a
transform mapping each source point to its destination. -/
theorem claim3_counterexample :
    srcDet { x := 0, y := 0 } { x := 1, y := 0 } { x := 0, y := 1 / 10 ^ 11 } ≠ 0 ∧
    solveAffineTransform
        [{ x := 0, y := 0 }, { x := 1, y := 0 }, { x := 0, y := 1 / 10 ^ 11 }]
        [{ x := 0, y := 0 }, { x := 1, y := 0 }, { x := 0, y := 1 }] = none := by
  constructor
  · norm_num [srcDet]
  · have hlt : |srcDet { x := 0, y := 0 } { x := 1, y := 0 }
        { x := 0, y := 1 / 10 ^ 11 }| < 1 / 10 ^ 10 := by
      simp only [srcDet]
      rw [abs_of_pos] <;> norm_num
    simp only [solveAffineTransform, if_pos hlt]

/-- Claim C3 (amended): for every source triple whose homogeneous determinant
is at least `1e-10` in absolute value (the solver's own non-degeneracy
threshold) and any destination triple, `solveAffineTransform` returns a
transform mapping each source point exactly to its destination point; and the
pure-translation scenario with source `(0,0),(10,0),(0,10)` and destination
`(5,5),(15,5),(5,15)` yields `a=1, b=0, c=0, d=1, tx=5, ty=5`. -/
theorem claim3_affine_solve_exact (s1 s2 s3 d1 d2 d3 : Pt)
    (hdet : 1 / 10 ^ 10 ≤ |srcDet s1 s2 s3|) :
    (∃ t : AffineTransform,
      solveAffineTransform [s1, s2, s3] [d1, d2, d3] = some t ∧
      t.a * s1.x + t.b * s1.y + t.tx = d1.x ∧ t.c * s1.x + t.d * s1.y + t.ty = d1.y ∧
      t.a * s2.x + t.b * s2.y + t.tx = d2.x ∧ t.c * s2.x + t.d * s2.y + t.ty = d2.y ∧
      t.a * s3.x + t.b * s3.y + t.tx = d3.x ∧ t.c * s3.x + t.d * s3.y + t.ty = d3.y) ∧
    solveAffineTransform
        [{ x := 0, y := 0 }, { x := 10, y := 0 }, { x := 0, y := 10 }]
        [{ x := 5, y := 5 }, { x := 15, y := 5 }, { x := 5, y := 15 }] =
      some { a := 1, b := 0, c := 0, d := 1, tx := 5, ty := 5 } := by
  have hne : srcDet s1 s2 s3 ≠ 0 := by
    intro h0
    rw [h0] at hdet
    norm_num at hdet
  have hnot : ¬ |srcDet s1 s2 s3| < 1 / 10 ^ 10 := not_lt.mpr hdet
  constructor
  · simp only [solveAffineTransform, if_neg hnot]
    refine ⟨_, rfl, ?_, ?_, ?_, ?_, ?_, ?_⟩ <;>
      · simp only [srcDet] at hne ⊢
        field_simp
        ring
  · norm_num [solveAffineTransform, srcDet, AffineTransform.mk.injEq]

/-- Witness for claim C3 at the pure-translation scenario triple. -/
theorem claim3_affine_solve_exact_witness :
    ∃ t : AffineTransform,
      solveAffineTransform
          [{ x := 0, y := 0 }, { x := 10, y := 0 }, { x := 0, y := 10 }]
          [{ x := 5, y := 5 }, { x := 15, y := 5 }, { x := 5, y := 15 }] = some t ∧
      t.a * 0 + t.b * 0 + t.tx = 5 ∧ t.c * 0 + t.d * 0 + t.ty = 5 ∧
      t.a * 10 + t.b * 0 + t.tx = 15 ∧ t.c * 10 + t.d * 0 + t.ty = 5 ∧
      t.a * 0 + t.b * 10 + t.tx = 5 ∧ t.c * 0 + t.d * 10 + t.ty = 15 :=
  (claim3_affine_solve_exact { x := 0, y := 0 } { x := 10, y := 0 } { x := 0, y := 10 }
    { x := 5, y := 5 } { x := 15, y := 5 } { x := 5, y := 15 }
    (by norm_num [srcDet])).1

/-- The two calibration phases of `CalibrationState.step`. -/
inductive CalibrationStep where
  | heatmap
  | floorplan
deriving DecidableEq, Repr

/-- `CalibrationState` from `types.ts`: the transient 3-point-pair picking
session. -/
structure CalibrationState where
  isCalibrating : Bool
  step : CalibrationStep
  heatmapPoints : List Pt
  floorplanPoints : List Pt
deriving DecidableEq, Repr

/-- One run of the App effect "Compute calibration when complete": when a
calibration is in progress and both point triples are complete, solve; on
failure reset the session and leave the adjustment untouched; on success
reset the session and install the affine transform with the simple-mode
parameters reset to identity. -/
def calibrationEffect (cal : CalibrationState) (adj : FloorPlanAdjustment) :
    CalibrationState × FloorPlanAdjustment :=
  if cal.isCalibrating = true ∧ cal.heatmapPoints.length = 3 ∧
      cal.floorplanPoints.length = 3 then
    match solveAffineTransform cal.heatmapPoints cal.floorplanPoints with
    | none =>
      ({ isCalibrating := false, step := CalibrationStep.heatmap,
         heatmapPoints := [], floorplanPoints := [] }, adj)
    | some affine =>
      ({ isCalibrating := false, step := CalibrationStep.heatmap,
         heatmapPoints := [], floorplanPoints := [] },
       { adj with useAffine := true, affine := some affine,
                  offsetX := 0, offsetY := 0, rotation := 0,
                  scale := some 1, scaleX := some 1, scaleY := some 1,
                  lockAspectRatio := true })
  else (cal, adj)

/-- Claim C4: for every in-progress calibration whose three source points are
collinear or near-collinear (homogeneous determinant below `1e-10` in
absolute value), the solver returns `none`, and the effect discards the
session's point lists and leaves the adjustment unchanged instead of
applying an unstable transform. -/
theorem claim4_degenerate_calibration (cal : CalibrationState)
    (adj : FloorPlanAdjustment) (p1 p2 p3 : Pt)
    (hcal : cal.isCalibrating = true) (hsrc : cal.heatmapPoints = [p1, p2, p3])
    (hdst : cal.floorplanPoints.length = 3)
    (hdet : |srcDet p1 p2 p3| < 1 / 10 ^ 10) :
    solveAffineTransform cal.heatmapPoints cal.floorplanPoints = none ∧
    calibrationEffect cal adj =
      ({ isCalibrating := false, step := CalibrationStep.heatmap,
         heatmapPoints := [], floorplanPoints := [] }, adj) := by
  obtain ⟨q1, q2, q3, hq⟩ := List.length_eq_three.mp hdst
  have hsolve : solveAffineTransform cal.heatmapPoints cal.floorplanPoints = none := by
    rw [hsrc, hq]
    simp only [solveAffineTransform, if_pos hdet]
  refine ⟨hsolve, ?_⟩
  have hcond : cal.isCalibrating = true ∧ cal.heatmapPoints.length = 3 ∧
      cal.floorplanPoints.length = 3 := ⟨hcal, by rw [hsrc]; rfl, hdst⟩
  rw [calibrationEffect, if_pos hcond, hsolve]

/-- An in-progress calibration session whose heatmap triple is collinear. -/
def collinearCalibration : CalibrationState :=
  { isCalibrating := true, step := CalibrationStep.floorplan,
    heatmapPoints := [{ x := 0, y := 0 }, { x := 1, y := 1 }, { x := 2, y := 2 }],
    floorplanPoints := [{ x := 0, y := 0 }, { x := 1, y := 0 }, { x := 0, y := 1 }] }

/-- Witness for claim C4 on a concrete collinear session. -/
theorem claim4_degenerate_calibration_witness :
    solveAffineTransform collinearCalibration.heatmapPoints
        collinearCalibration.floorplanPoints = none ∧
    calibrationEffect collinearCalibration sampleAdjustment =
      ({ isCalibrating := false, step := CalibrationStep.heatmap,
         heatmapPoints := [], floorplanPoints := [] }, sampleAdjustment) :=
  claim4_degenerate_calibration collinearCalibration sampleAdjustment
    { x := 0, y := 0 } { x := 1, y := 1 } { x := 2, y := 2 }
    rfl rfl rfl (by norm_num [srcDet])

/-- A JavaScript number as it appears in the heatmap bounds payload: finite,
or one of the IEEE infinities that coordinatewise min/max produces over an
empty dataset. -/
inductive JVal where
  | fin (q : ℚ)
  | posInf
  | negInf
deriving DecidableEq, Repr

/-- The finite value of a bounds field. The code path modelled here reads the
fields arithmetically only after `hasValidDataBounds` succeeds, and min/max
over a non-empty finite dataset is finite, so the infinite cases are never
read; they are mapped to 0. -/
def JVal.toQ : JVal → ℚ
  | .fin q => q
  | .posInf => 0
  | .negInf => 0

/-- The `bounds` object of a heatmap/dwell response. -/
structure DataBounds where
  min_x : JVal
  max_x : JVal
  min_y : JVal
  max_y : JVal
deriving DecidableEq, Repr

/-- `hasValidDataBounds` from `HeatmapCanvas/index.tsx`: the bounds exist and
carry none of the empty-dataset infinity signature (`min_x = Infinity`,
`max_x = -Infinity`, `min_y = Infinity`, `max_y = -Infinity`). -/
def hasValidDataBounds (dataBounds : Option DataBounds) : Bool :=
  match dataBounds with
  | none => false
  | some b =>
    decide (b.min_x ≠ JVal.posInf) && decide (b.max_x ≠ JVal.negInf) &&
    decide (b.min_y ≠ JVal.posInf) && decide (b.max_y ≠ JVal.negInf)

/-- The `virtualFloorPlan` computation of `HeatmapCanvas`: with a floor plan,
use it unchanged; without one, auto-fit to the data bounds expanded by a 5%
margin, falling back to the `[0,100] × [0,100]` defaults when the bounds are
missing or invalid. The source builds a single record with per-field
conditionals on `hasValidDataBounds`; the match below splits the same record
into the two cases those conditionals select between. -/
def virtualFloorPlan (floorPlan : Option FloorPlan) (dataBounds : Option DataBounds)
    (storeId floorNum : ℤ) (width height : ℚ) : FloorPlan :=
  match floorPlan with
  | some fp => fp
  | none =>
    let margin : ℚ := 5 / 100
    match dataBounds with
    | some b =>
      if hasValidDataBounds (some b) then
        let dataRangeX := b.max_x.toQ - b.min_x.toQ
        let dataRangeY := b.max_y.toQ - b.min_y.toQ
        { id := 0, store_id := storeId, floor := floorNum, filename := "", url := "",
          data_min_x := b.min_x.toQ - dataRangeX * margin,
          data_max_x := b.max_x.toQ + dataRangeX * margin,
          data_min_y := b.min_y.toQ - dataRangeY * margin,
          data_max_y := b.max_y.toQ + dataRangeY * margin,
          image_width := width, image_height := height,
          adjust_offset_x := 0, adjust_offset_y := 0, adjust_scale := 1,
          adjust_scale_x := 1, adjust_scale_y := 1, adjust_rotation := 0,
          created_at := "" }
      else
        { id := 0, store_id := storeId, floor := floorNum, filename := "", url := "",
          data_min_x := 0, data_max_x := 100, data_min_y := 0, data_max_y := 100,
          image_width := width, image_height := height,
          adjust_offset_x := 0, adjust_offset_y := 0, adjust_scale := 1,
          adjust_scale_x := 1, adjust_scale_y := 1, adjust_rotation := 0,
          created_at := "" }
    | none =>
      { id := 0, store_id := storeId, floor := floorNum, filename := "", url := "",
        data_min_x := 0, data_max_x := 100, data_min_y := 0, data_max_y := 100,
        image_width := width, image_height := height,
        adjust_offset_x := 0, adjust_offset_y := 0, adjust_scale := 1,
        adjust_scale_x := 1, adjust_scale_y := 1, adjust_rotation := 0,
        created_at := "" }

/-- The empty-dataset bounds signature. -/
def emptyBoundsSignature : DataBounds :=
  { min_x := JVal.posInf, max_x := JVal.negInf,
    min_y := JVal.posInf, max_y := JVal.negInf }

/-- Claim C6 as stated is false: with no floor plan and the empty-dataset
bounds signature, the substituted reference frame is the `[0,100] × [0,100]`
square — its x-extent is 100, not the unit square the claim names. -/
theorem claim6_counterexample :
    (virtualFloorPlan none (some emptyBoundsSignature) 1 1 800 600).data_max_x -
      (virtualFloorPlan none (some emptyBoundsSignature) 1 1 800 600).data_min_x ≠ 1 := by
  norm_num [virtualFloorPlan, hasValidDataBounds, emptyBoundsSignature]

/-- Claim C6 (amended): whenever there is no floor plan and the data bounds
are missing or carry the empty-dataset infinity signature, the reference
frame is substituted with the default `[0,100] × [0,100]` square, whose
extents are non-zero, so the data/canvas transforms divide by non-zero
quantities and round-trip exactly (no NaN/Infinity enters the chain). -/
theorem claim6_default_frame (dataBounds : Option DataBounds)
    (storeId floorNum : ℤ) (w h : ℚ)
    (hvalid : hasValidDataBounds dataBounds = false) (hw : 0 < w) (hh : 0 < h) :
    virtualFloorPlan none dataBounds storeId floorNum w h =
      { id := 0, store_id := storeId, floor := floorNum, filename := "", url := "",
        data_min_x := 0, data_max_x := 100, data_min_y := 0, data_max_y := 100,
        image_width := w, image_height := h,
        adjust_offset_x := 0, adjust_offset_y := 0, adjust_scale := 1,
        adjust_scale_x := 1, adjust_scale_y := 1, adjust_rotation := 0,
        created_at := "" } ∧
    (∀ p : Pt,
      canvasToData
        (dataToCanvas p.x p.y (virtualFloorPlan none dataBounds storeId floorNum w h) w h).x
        (dataToCanvas p.x p.y (virtualFloorPlan none dataBounds storeId floorNum w h) w h).y
        (virtualFloorPlan none dataBounds storeId floorNum w h) w h = p) := by
  have hfp : virtualFloorPlan none dataBounds storeId floorNum w h =
      { id := 0, store_id := storeId, floor := floorNum, filename := "", url := "",
        data_min_x := 0, data_max_x := 100, data_min_y := 0, data_max_y := 100,
        image_width := w, image_height := h,
        adjust_offset_x := 0, adjust_offset_y := 0, adjust_scale := 1,
        adjust_scale_x := 1, adjust_scale_y := 1, adjust_rotation := 0,
        created_at := "" } := by
    cases dataBounds with
    | none => rfl
    | some b => simp only [virtualFloorPlan, hvalid, Bool.false_eq_true, if_false]
  refine ⟨hfp, fun p => ?_⟩
  rw [hfp]
  exact canvasToData_dataToCanvas p.x p.y _ w h (by norm_num) (by norm_num)
    (ne_of_gt hw) (ne_of_gt hh)

/-- Witness for claim C6 with the empty-dataset signature on an `800 × 600`
canvas, round-tripping the data point `(3, 4)`. -/
theorem claim6_default_frame_witness :
    (virtualFloorPlan none (some emptyBoundsSignature) 1 1 800 600).data_max_x = 100 ∧
    canvasToData
      (dataToCanvas 3 4 (virtualFloorPlan none (some emptyBoundsSignature) 1 1 800 600)
        800 600).x
      (dataToCanvas 3 4 (virtualFloorPlan none (some emptyBoundsSignature) 1 1 800 600)
        800 600).y
      (virtualFloorPlan none (some emptyBoundsSignature) 1 1 800 600) 800 600 =
      { x := 3, y := 4 } := by
  have h := claim6_default_frame (some emptyBoundsSignature) 1 1 800 600 rfl
    (by norm_num) (by norm_num)
  exact ⟨by rw [h.1], h.2 { x := 3, y := 4 }⟩

/-- `Math.round` of JavaScript on the rationals: half-values round toward
positive infinity. -/
def jsRound (q : ℚ) : ℤ := ⌊q + 1 / 2⌋

/-- `Math.floor` of JavaScript on the rationals. -/
def jsFloor (q : ℚ) : ℤ := ⌊q⌋

/-- A colour triple; the source formats it as an `rgba(r, g, b, alpha)`
string with the alpha passed through unchanged. -/
structure RGB where
  r : ℤ
  g : ℤ
  b : ℤ
deriving DecidableEq, Repr

/-- `getHeatmapColor` from `utils/coordinates.ts`: clamp the intensity to
`[0,1]` and apply the 5-stop blue → cyan → green → yellow → red ramp. -/
def getHeatmapColor (intensity : ℚ) : RGB :=
  let i := max 0 (min 1 intensity)
  if i < 1 / 4 then
    { r := 0, g := jsRound (255 * (i / (1 / 4))), b := 255 }
  else if i < 1 / 2 then
    { r := 0, g := 255, b := jsRound (255 * (1 - (i - 1 / 4) / (1 / 4))) }
  else if i < 3 / 4 then
    { r := jsRound (255 * ((i - 1 / 2) / (1 / 4))), g := 255, b := 0 }
  else
    { r := 255, g := jsRound (255 * (1 - (i - 3 / 4) / (1 / 4))), b := 0 }

/-- A written pixel of the rasterizer: colour channels and alpha. -/
structure RGBA where
  r : ℤ
  g : ℤ
  b : ℤ
  a : ℤ
deriving DecidableEq, Repr

/-- One pixel of the track-mode colorization loop of `HeatmapCanvas`
(Step 4): normalize the blurred intensity against `[pixelMin, pixelMin +
range]`, clamp to `[0,1]`, and either write the 4-stop ramp colour with an
intensity-derived alpha, or — at normalized intensity at most `0.02` —
leave the pixel fully transparent (`none`: alpha written 0, colour channels
untouched). -/
def colorizePixel (rawIntensity pixelMin range : ℚ) : Option RGBA :=
  let normalizedIntensity := max 0 (min 1 ((rawIntensity - pixelMin) / range))
  if normalizedIntensity > 2 / 100 then
    let t4 := normalizedIntensity * 4
    if t4 < 1 then
      some { r := 0, g := jsFloor (255 * t4), b := 255,
             a := jsFloor (220 * min 1 (normalizedIntensity * (3 / 2))) }
    else if t4 < 2 then
      some { r := 0, g := 255, b := jsFloor (255 * (2 - t4)),
             a := jsFloor (220 * min 1 (normalizedIntensity * (3 / 2))) }
    else if t4 < 3 then
      some { r := jsFloor (255 * (t4 - 2)), g := 255, b := 0,
             a := jsFloor (220 * min 1 (normalizedIntensity * (3 / 2))) }
    else
      some { r := 255, g := jsFloor (255 * (4 - t4)), b := 0,
             a := jsFloor (220 * min 1 (normalizedIntensity * (3 / 2))) }
  else none

/-- Claim C8 as stated is false for the rasterizer loop: at normalized
intensity 0 the utility does return pure blue, but the per-pixel loop leaves
the pixel fully transparent (below its `> 0.02` threshold) and writes no
colour at all. -/
theorem claim8_counterexample :
    getHeatmapColor 0 = { r := 0, g := 0, b := 255 } ∧
    colorizePixel 0 0 1 = none := by
  constructor
  · norm_num [getHeatmapColor, jsRound, RGB.mk.injEq]
  · norm_num [colorizePixel]

/-- Claim C8 (amended): `getHeatmapColor` maps normalized intensity 0 to pure
blue, 1/2 to pure green and 1 to pure red; the rasterizer's per-pixel loop
likewise yields pure green at normalized intensity 1/2 and pure red at 1,
but renders pixels of normalized intensity 0 fully transparent instead of
blue. -/
theorem claim8_color_ramp :
    getHeatmapColor 0 = { r := 0, g := 0, b := 255 } ∧
    getHeatmapColor (1 / 2) = { r := 0, g := 255, b := 0 } ∧
    getHeatmapColor 1 = { r := 255, g := 0, b := 0 } ∧
    (∀ raw pmin range : ℚ, max 0 (min 1 ((raw - pmin) / range)) = 0 →
      colorizePixel raw pmin range = none) ∧
    (∀ raw pmin range : ℚ, max 0 (min 1 ((raw - pmin) / range)) = 1 / 2 →
      colorizePixel raw pmin range = some { r := 0, g := 255, b := 0, a := 165 }) ∧
    (∀ raw pmin range : ℚ, max 0 (min 1 ((raw - pmin) / range)) = 1 →
      colorizePixel raw pmin range = some { r := 255, g := 0, b := 0, a := 220 }) := by
  refine ⟨?_, ?_, ?_, ?_, ?_, ?_⟩
  · norm_num [getHeatmapColor, jsRound, RGB.mk.injEq]
  · norm_num [getHeatmapColor, jsRound, RGB.mk.injEq]
  · norm_num [getHeatmapColor, jsRound, RGB.mk.injEq]
  · intro raw pmin range hn
    simp only [colorizePixel, hn]
    norm_num
  · intro raw pmin range hn
    simp only [colorizePixel, hn]
    norm_num [jsFloor, RGBA.mk.injEq]
  · intro raw pmin range hn
    simp only [colorizePixel, hn]
    norm_num [jsFloor, RGBA.mk.injEq]

/-- Witness for claim C8: concrete loop pixels at normalized intensities 0,
1/2 and 1. -/
theorem claim8_color_ramp_witness :
    colorizePixel 0 0 5 = none ∧
    colorizePixel 1 0 2 = some { r := 0, g := 255, b := 0, a := 165 } ∧
    colorizePixel 7 0 7 = some { r := 255, g := 0, b := 0, a := 220 } :=
  ⟨claim8_color_ramp.2.2.2.1 0 0 5 (by norm_num),
   claim8_color_ramp.2.2.2.2.1 1 0 2 (by norm_num),
   claim8_color_ramp.2.2.2.2.2 7 0 7 (by norm_num)⟩

/-- `HeatmapPoint` from `types.ts`; the visible-stats filter reads only the
planar coordinates. -/
structure HeatmapPoint where
  x : ℚ
  y : ℚ
  latitude : ℚ
  longitude : ℚ
  hash_id : String
  timestamp : ℚ
  floor : ℤ
  uncertainty : ℚ
deriving DecidableEq, Repr

/-- `HeatmapResponse` from `types.ts` (tracks mode). -/
structure HeatmapResponse where
  points : List HeatmapPoint
  bounds : DataBounds
  total_returned : ℕ
  total_in_database : ℕ
  total_unique_visitors : Option ℕ := none
  total_visitor_days : Option ℕ := none
deriving DecidableEq, Repr

/-- `DwellTimeCell` from `types.ts`. -/
structure DwellTimeCell where
  x : ℚ
  y : ℚ
  total_dwell_seconds : ℚ
  avg_dwell_seconds : ℚ
  visit_count : ℕ
deriving DecidableEq, Repr

/-- `DwellTimeResponse` from `types.ts` (dwell mode). -/
structure DwellTimeResponse where
  cells : List DwellTimeCell
  grid_size : ℚ
  bounds : DataBounds
  total_dwell_time : ℚ
  avg_dwell_time : ℚ
deriving DecidableEq, Repr

/-- The heatmap data handed to the canvas, tagged by the view mode that
selects which branch of the visible-stats effect runs. -/
inductive HeatmapData where
  | tracks (resp : HeatmapResponse)
  | dwell (resp : DwellTimeResponse)
deriving DecidableEq, Repr

/-- The `VisibleStats` record reported upward; the source formats
`percentage` with `toFixed(1)` for display — the rational value before
formatting is modelled. -/
structure VisibleStats where
  pointsInView : ℕ
  totalPoints : ℕ
  percentage : ℚ
deriving DecidableEq, Repr

/-- The data-space visible bounding box of the effect. -/
structure VisibleBounds where
  minX : ℚ
  maxX : ℚ
  minY : ℚ
  maxY : ℚ
deriving DecidableEq, Repr

/-- The visible data-space box of the effect: the four canvas corners are
pushed through the full inverse pipeline and the coordinatewise min/max is
taken (the source maps the literal four-corner list and spreads it into
`Math.min`/`Math.max`). -/
def visibleBoundsOf (zoom : ℚ) (pan : Pt) (w h : ℚ) (adj : FloorPlanAdjustment)
    (c s : ℚ) (vfp : FloorPlan) : VisibleBounds :=
  let c1 := inversePipeline { x := 0, y := 0 } vfp adj c s zoom pan w h
  let c2 := inversePipeline { x := w, y := 0 } vfp adj c s zoom pan w h
  let c3 := inversePipeline { x := 0, y := h } vfp adj c s zoom pan w h
  let c4 := inversePipeline { x := w, y := h } vfp adj c s zoom pan w h
  { minX := min (min c1.x c2.x) (min c3.x c4.x),
    maxX := max (max c1.x c2.x) (max c3.x c4.x),
    minY := min (min c1.y c2.y) (min c3.y c4.y),
    maxY := max (max c1.y c2.y) (max c3.y c4.y) }

/-- The filter predicate of the visible-stats effect:
`x >= minX && x <= maxX && y >= minY && y <= maxY`. -/
def inDataBox (vb : VisibleBounds) (x y : ℚ) : Prop :=
  vb.minX ≤ x ∧ x ≤ vb.maxX ∧ vb.minY ≤ y ∧ y ≤ vb.maxY

instance (vb : VisibleBounds) (x y : ℚ) : Decidable (inDataBox vb x y) := by
  unfold inDataBox
  infer_instance

/-- The source's `total_returned || points.length`: a zero (falsy)
`total_returned` falls back to the point-list length. -/
def totalReturnedOr (resp : HeatmapResponse) : ℕ :=
  if resp.total_returned = 0 then resp.points.length else resp.total_returned

/-- The source's `cells.reduce((sum, c) => sum + (c.avg_dwell_seconds || 0), 0)`;
over this model `|| 0` only replaces the falsy value 0 by 0 and is the
identity. -/
def dwellSum (cells : List DwellTimeCell) : ℚ :=
  cells.foldl (fun sum cell => sum + cell.avg_dwell_seconds) 0

/-- One run of the "Calculate visible stats when zoomed" effect of
`HeatmapCanvas` (with heatmap data present and a stats callback attached):
report `none` in the unzoomed case, otherwise filter the dataset against the
four-corner inverse-pipeline box and report counts and percentage. -/
def visibleStatsEffect (zoom : ℚ) (pan : Pt) (w h : ℚ)
    (adj : FloorPlanAdjustment) (c s : ℚ) (vfp : FloorPlan)
    (dataObj : HeatmapData) : Option VisibleStats :=
  if zoom = 1 ∧ pan.x = 0 ∧ pan.y = 0 then none
  else
    let vb := visibleBoundsOf zoom pan w h adj c s vfp
    match dataObj with
    | HeatmapData.tracks resp =>
      let totalPoints := totalReturnedOr resp
      let visiblePoints := resp.points.filter fun p => decide (inDataBox vb p.x p.y)
      some { pointsInView := visiblePoints.length,
             totalPoints := totalPoints,
             percentage := (visiblePoints.length : ℚ) / (totalPoints : ℚ) * 100 }
    | HeatmapData.dwell resp =>
      let visibleCells := resp.cells.filter fun cell => decide (inDataBox vb cell.x cell.y)
      let totalDwell := dwellSum resp.cells
      let visibleDwell := dwellSum visibleCells
      some { pointsInView := visibleCells.length,
             totalPoints := resp.cells.length,
             percentage := if totalDwell > 0 then visibleDwell / totalDwell * 100 else 0 }

/-- Claim C9: with tracks data present, the visible-region statistic is
absent exactly when `zoom = 1` and `pan = (0,0)`; otherwise the four canvas
corners are pushed through the full inverse pipeline, their min/max forms
the visible data-space box, and the dataset filtered against that box is
reported as count-in-view, total (`total_returned` falling back to the list
length) and percentage. -/
theorem claim9_visible_stats (zoom : ℚ) (pan : Pt) (w h : ℚ)
    (adj : FloorPlanAdjustment) (c s : ℚ) (vfp : FloorPlan) (resp : HeatmapResponse) :
    (visibleStatsEffect zoom pan w h adj c s vfp (HeatmapData.tracks resp) = none ↔
      zoom = 1 ∧ pan.x = 0 ∧ pan.y = 0) ∧
    (¬ (zoom = 1 ∧ pan.x = 0 ∧ pan.y = 0) →
      visibleStatsEffect zoom pan w h adj c s vfp (HeatmapData.tracks resp) =
        some { pointsInView := (resp.points.filter fun p =>
                 decide (inDataBox (visibleBoundsOf zoom pan w h adj c s vfp) p.x p.y)).length,
               totalPoints := totalReturnedOr resp,
               percentage := ((resp.points.filter fun p =>
                   decide (inDataBox (visibleBoundsOf zoom pan w h adj c s vfp) p.x p.y)).length : ℚ) /
                 (totalReturnedOr resp : ℚ) * 100 }) := by
  constructor
  · constructor
    · intro hnone
      by_contra hskip
      rw [visibleStatsEffect, if_neg hskip] at hnone
      exact Option.noConfusion hnone
    · intro hskip
      rw [visibleStatsEffect, if_pos hskip]
  · intro hskip
    rw [visibleStatsEffect, if_neg hskip]

/-- The identity adjustment (the App's default `floorPlanAdjustment`). -/
def identityAdjustment : FloorPlanAdjustment :=
  { offsetX := 0, offsetY := 0, rotation := 0, scale := some 1,
    scaleX := some 1, scaleY := some 1, lockAspectRatio := true,
    useAffine := false, affine := none }

/-- A two-point tracks response over the `sampleFrame` bounds. -/
def sampleTracksResponse : HeatmapResponse :=
  { points :=
      [{ x := 3, y := 6, latitude := 0, longitude := 0, hash_id := "a",
         timestamp := 0, floor := 1, uncertainty := 0 },
       { x := 9, y := 19, latitude := 0, longitude := 0, hash_id := "b",
         timestamp := 0, floor := 1, uncertainty := 0 }],
    bounds := { min_x := JVal.fin 0, max_x := JVal.fin 10,
                min_y := JVal.fin 0, max_y := JVal.fin 20 },
    total_returned := 2, total_in_database := 2 }

/-- Witness for claim C9: at zoom 2 over the sample frame only the first of
the two sample points is inside the visible box, so the effect reports 1 of
2, i.e. 50 percent. -/
theorem claim9_visible_stats_witness :
    visibleStatsEffect 2 { x := 0, y := 0 } 800 600 identityAdjustment 1 0 sampleFrame
        (HeatmapData.tracks sampleTracksResponse) =
      some { pointsInView := 1, totalPoints := 2, percentage := 50 } := by
  rw [(claim9_visible_stats 2 { x := 0, y := 0 } 800 600 identityAdjustment 1 0
    sampleFrame sampleTracksResponse).2 (by norm_num)]
  norm_num [sampleTracksResponse, totalReturnedOr, inDataBox, visibleBoundsOf,
    inversePipeline, inverseZoomPan, inverseTransformPoint, canvasToData,
    identityAdjustment, scaleXof, scaleYof, sampleFrame,
    List.filter_cons, List.filter_nil, VisibleStats.mk.injEq]

/-- Claim C10: in dwell mode (and zoomed), the reported percentage is the
dwell-time-weighted share — the sum of `avg_dwell_seconds` over visible
cells divided by the sum over all cells, times 100 — while the in-view and
total figures are cell counts; when the total dwell sum is 0 the percentage
is reported as 0. -/
theorem claim10_dwell_weighted_percentage (zoom : ℚ) (pan : Pt) (w h : ℚ)
    (adj : FloorPlanAdjustment) (c s : ℚ) (vfp : FloorPlan) (resp : DwellTimeResponse)
    (hskip : ¬ (zoom = 1 ∧ pan.x = 0 ∧ pan.y = 0)) :
    (resp.cells ≠ [] → 0 < dwellSum resp.cells →
      visibleStatsEffect zoom pan w h adj c s vfp (HeatmapData.dwell resp) =
        some { pointsInView := (resp.cells.filter fun cell =>
                 decide (inDataBox (visibleBoundsOf zoom pan w h adj c s vfp)
                   cell.x cell.y)).length,
               totalPoints := resp.cells.length,
               percentage := dwellSum (resp.cells.filter fun cell =>
                   decide (inDataBox (visibleBoundsOf zoom pan w h adj c s vfp)
                     cell.x cell.y)) / dwellSum resp.cells * 100 }) ∧
    (dwellSum resp.cells = 0 →
      visibleStatsEffect zoom pan w h adj c s vfp (HeatmapData.dwell resp) =
        some { pointsInView := (resp.cells.filter fun cell =>
                 decide (inDataBox (visibleBoundsOf zoom pan w h adj c s vfp)
                   cell.x cell.y)).length,
               totalPoints := resp.cells.length,
               percentage := 0 }) := by
  constructor
  · intro _hne hpos
    simp only [visibleStatsEffect, if_neg hskip]
    rw [if_pos hpos]
  · intro hzero
    have hneg : ¬ dwellSum resp.cells > 0 := by
      rw [hzero]
      exact lt_irrefl 0
    simp only [visibleStatsEffect, if_neg hskip]
    rw [if_neg hneg]

/-- A two-cell dwell response over the `sampleFrame` bounds with average
dwell 30 and 10 seconds. -/
def sampleDwellResponse : DwellTimeResponse :=
  { cells :=
      [{ x := 3, y := 6, total_dwell_seconds := 60, avg_dwell_seconds := 30,
         visit_count := 2 },
       { x := 9, y := 19, total_dwell_seconds := 10, avg_dwell_seconds := 10,
         visit_count := 1 }],
    grid_size := 1,
    bounds := { min_x := JVal.fin 0, max_x := JVal.fin 10,
                min_y := JVal.fin 0, max_y := JVal.fin 20 },
    total_dwell_time := 70, avg_dwell_time := 20 }

/-- Witness for claim C10: only the 30-second cell is visible at zoom 2, so
the percentage is `30 / 40 · 100 = 75` while the counts are 1 of 2. -/
theorem claim10_dwell_weighted_percentage_witness :
    visibleStatsEffect 2 { x := 0, y := 0 } 800 600 identityAdjustment 1 0 sampleFrame
        (HeatmapData.dwell sampleDwellResponse) =
      some { pointsInView := 1, totalPoints := 2, percentage := 75 } := by
  rw [(claim10_dwell_weighted_percentage 2 { x := 0, y := 0 } 800 600 identityAdjustment
    1 0 sampleFrame sampleDwellResponse (by norm_num)).1
    (by simp [sampleDwellResponse])
    (by norm_num [dwellSum, sampleDwellResponse])]
  norm_num [sampleDwellResponse, dwellSum, inDataBox, visibleBoundsOf,
    inversePipeline, inverseZoomPan, inverseTransformPoint, canvasToData,
    identityAdjustment, scaleXof, scaleYof, sampleFrame,
    List.filter_cons, List.filter_nil, VisibleStats.mk.injEq]

end Tracking
